import Mathlib

/-!
Verification of the `findesiecle/client` request layer
(`src/package/request.py`) against its natural-language specification.

The Python source is shallowly embedded: the `RequestClient.request`
method and the `endpoint` decorator class become pure Lean functions,
with the network send abstracted as an explicit function argument,
dictionaries as association lists, and Python exceptions as `Except`
errors. Notable source facts the embedding preserves:

* the module imports `from os.path import join as urljoin`, so URL
  joining in `request` is POSIX filesystem path joining;
* `request` applies a default timeout of 30 via
  `kwargs.update(timeout=kwargs.get('timeout', 30))`;
* `response.raise_for_status()` (from the `requests` library) raises
  exactly for status codes in [400, 599];
* in `endpoint._parse_args` the incoming `**kwargs` binding is rebound
  to a fresh empty dict (`kwargs = dict()`) before the partition loop,
  so the loop iterates over nothing.
-/

/-- Values carried by Python keyword arguments in this model: integers,
strings, string-to-string dicts (request params, headers), or None. -/
inductive PyVal : Type where
  | vInt : Int → PyVal
  | vStr : String → PyVal
  | vDict : List (String × String) → PyVal
  | vNone : PyVal
  deriving DecidableEq, Repr

/-- Renders a value the way Python `str` / `"{}".format` does for the
value kinds in this model (used as a typical converter). -/
def pyStrConv : PyVal → String
  | PyVal.vInt n => toString n
  | PyVal.vStr s => s
  | PyVal.vDict _ => ""
  | PyVal.vNone => "None"

/-- Model of a `requests.Response`: status code and body text. -/
structure Response : Type where
  status_code : Nat
  text : String
  deriving DecidableEq, Repr

/-- Model of `requests.exceptions.HTTPError` as raised by
`Response.raise_for_status`: carries the status and the response body. -/
structure HTTPError : Type where
  status_code : Nat
  text : String
  deriving DecidableEq, Repr

/-- Client configuration: the server base URL configured on the
`RequestClient` subclass. -/
structure Client : Type where
  server : String
  deriving DecidableEq, Repr

/-- Looks a key up in an association-list dict (first binding wins),
mirroring Python `dict.get`. -/
def dictGet {α : Type} : List (String × α) → String → Option α
  | [], _ => none
  | kv :: rest, k => if kv.1 = k then some kv.2 else dictGet rest k

/-- Sets a key in an association-list dict, replacing the first existing
binding or appending, mirroring Python `dict.update` with one key. -/
def dictSet {α : Type} : List (String × α) → String → α → List (String × α)
  | [], k, v => [(k, v)]
  | kv :: rest, k, v =>
      if kv.1 = k then (k, v) :: rest else kv :: dictSet rest k v

/-- Tests whether `p` is an initial segment of `s`, on the underlying
character lists (same semantics as Python `str.startswith`). -/
def strStartsWith (s p : String) : Bool :=
  p.data.isPrefixOf s.data

/-- Tests whether `p` is a final segment of `s`, on the underlying
character lists (same semantics as Python `str.endswith`). -/
def strEndsWith (s p : String) : Bool :=
  p.data.reverse.isPrefixOf s.data.reverse

/-- Embeds `posixpath.join(a, b)` for two arguments. The source imports
this function under the alias `urljoin`. If `b` starts with `'/'` the
accumulated path is replaced by `b`; otherwise `b` is appended with a
separator unless `a` is empty or already ends in one. -/
def posixJoin (a b : String) : String :=
  if strStartsWith b "/" then b
  else if a = "" ∨ strEndsWith a "/" then a ++ b
  else a ++ "/" ++ b

/-- Keeps everything of `s` up to and including the last `'/'`
(empty if `s` has no slash). -/
def keepThroughLastSlash (s : String) : String :=
  String.mk (((s.data.reverse).dropWhile (fun c => c ≠ '/')).reverse)

/-- Modelled from the spec: standard URL-joining semantics (RFC 3986
relative resolution) for a relative reference `p` (no leading slash, no
scheme) against a base URL: the base's last path segment is dropped and
`p` is appended, as `urllib.parse.urljoin` does. The source does not
contain such a function; this definition exists only to be compared with
`posixJoin`, which is what the source actually calls. -/
def urljoinRelative (base p : String) : String :=
  keepThroughLastSlash base ++ p

/-- Embeds the line `kwargs.update(timeout=kwargs.get('timeout', 30))`
of `RequestClient.request`. -/
def withDefaultTimeout (kwargs : List (String × PyVal)) : List (String × PyVal) :=
  dictSet kwargs "timeout" ((dictGet kwargs "timeout").getD (PyVal.vInt 30))

/-- Embeds `requests.Response.raise_for_status`: raises `HTTPError`
exactly for status codes in [400, 599] (4xx client errors and 5xx server
errors), and is a no-op for every other status code. -/
def raise_for_status (r : Response) : Except HTTPError Unit :=
  if 400 ≤ r.status_code ∧ r.status_code < 600 then
    Except.error ⟨r.status_code, r.text⟩
  else Except.ok ()

/-- Embeds the line `url = urljoin(self.server, path)` of
`RequestClient.request` (where `urljoin` is `os.path.join`). -/
def RequestClient.requestURL (c : Client) (path : String) : String :=
  posixJoin c.server path

/-- Embeds `RequestClient.request`. The network call
`super().request(method, url, **kwargs)` is abstracted as the function
argument `send`, which maps (method, url, kwargs) to the server's
response. Returns the response on success, or the `HTTPError` raised by
`raise_for_status`. -/
def RequestClient.request (c : Client)
    (send : String → String → List (String × PyVal) → Response)
    (method path : String) (kwargs : List (String × PyVal)) :
    Except HTTPError Response :=
  match raise_for_status
      (send method (RequestClient.requestURL c path) (withDefaultTimeout kwargs)) with
  | Except.error e => Except.error e
  | Except.ok _ =>
      Except.ok (send method (RequestClient.requestURL c path) (withDefaultTimeout kwargs))

theorem dictGet_dictSet_self {α : Type} (d : List (String × α)) (k : String) (v : α) :
    dictGet (dictSet d k v) k = some v := by
  induction d with
  | nil => simp [dictGet, dictSet]
  | cons kv rest ih =>
      by_cases h : kv.1 = k
      · simp [dictGet, dictSet, h]
      · simp [dictGet, dictSet, h, ih]

theorem dictGet_dictSet_ne {α : Type} (d : List (String × α)) (k k' : String) (v : α)
    (h : k' ≠ k) : dictGet (dictSet d k v) k' = dictGet d k' := by
  have hkk : ¬ (k = k') := fun hh => h hh.symm
  induction d with
  | nil => simp [dictGet, dictSet, hkk]
  | cons kv rest ih =>
      by_cases hk : kv.1 = k
      · subst hk
        simp [dictGet, dictSet, hkk]
      · simp [dictGet, dictSet, hk, ih]

/-- Left brace character, written via its code point. -/
def lbrace : Char := Char.ofNat 123

/-- Right brace character, written via its code point. -/
def rbrace : Char := Char.ofNat 125

/-- Failure of `str.format` on the path template. The spec names this
failure `FormatError`; CPython concretely raises `IndexError` when the
auto-numbered replacement fields outnumber the arguments. -/
inductive FormatError : Type where
  | indexError : FormatError
  | unsupportedField : FormatError
  deriving DecidableEq, Repr

/-- Parts of a parsed path template: literal characters and empty
auto-numbered replacement fields. -/
inductive TPart : Type where
  | lit : Char → TPart
  | slot : TPart
  deriving DecidableEq, Repr

/-- Parses a format template into parts. The model covers the fragment
of Python format strings this library's templates use: literal text and
empty auto-numbered replacement fields; any other use of a brace
(named or indexed fields, format specs, brace escapes) is out of the
modelled fragment and reported as `unsupportedField`. -/
def parseT : List Char → Except FormatError (List TPart)
  | [] => Except.ok []
  | c :: cs =>
    if c = lbrace then
      match cs with
      | c2 :: cs2 =>
          if c2 = rbrace then (parseT cs2).map (fun ps => TPart.slot :: ps)
          else Except.error FormatError.unsupportedField
      | [] => Except.error FormatError.unsupportedField
    else if c = rbrace then Except.error FormatError.unsupportedField
    else (parseT cs).map (fun ps => TPart.lit c :: ps)

/-- Renders parsed template parts against the argument list, consuming
one argument per replacement field in order; fails with `indexError`
when the arguments run out, exactly as `str.format` does. Arguments
beyond the fields are ignored, as in Python. -/
def renderT : List TPart → List String → Except FormatError String
  | [], _ => Except.ok ""
  | TPart.lit c :: ps, as => (renderT ps as).map (fun r => c.toString ++ r)
  | TPart.slot :: ps, as =>
      match as with
      | [] => Except.error FormatError.indexError
      | a :: as' => (renderT ps as').map (fun r => a ++ r)

/-- Embeds `self.path_template.format(*args)`: parse the template, then
substitute the argument strings positionally. -/
def pyFormat (t : String) (as : List String) : Except FormatError String :=
  (parseT t.data).bind (fun ps => renderT ps as)

/-- Number of replacement fields among template parts. -/
def slotCount : List TPart → Nat
  | [] => 0
  | TPart.lit _ :: ps => slotCount ps
  | TPart.slot :: ps => 1 + slotCount ps

/-- The endpoint descriptor: verb, path template, positional converters,
keyword converters, and the wrapped method (`None` until decoration).
`ρ` is the wrapped method's return type. -/
structure endpoint (ρ : Type) : Type where
  method : String
  path_template : String
  map_args : List (PyVal → String)
  map_kwargs : List (String × (PyVal → String))
  func : Option (Client → Response → ρ)

/-- Embeds `endpoint.__init__`: stores the construction arguments and
sets `func` to `None`. -/
def endpoint.init {ρ : Type} (method path_template : String)
    (map_args : List (PyVal → String))
    (map_kwargs : List (String × (PyVal → String))) : endpoint ρ :=
  ⟨method, path_template, map_args, map_kwargs, none⟩

/-- Embeds `endpoint.get`: a GET endpoint. -/
def endpoint.get {ρ : Type} (path_template : String)
    (map_args : List (PyVal → String))
    (map_kwargs : List (String × (PyVal → String))) : endpoint ρ :=
  endpoint.init "GET" path_template map_args map_kwargs

/-- Embeds `endpoint.post`: a POST endpoint. -/
def endpoint.post {ρ : Type} (path_template : String)
    (map_args : List (PyVal → String))
    (map_kwargs : List (String × (PyVal → String))) : endpoint ρ :=
  endpoint.init "POST" path_template map_args map_kwargs

/-- Embeds `endpoint.delete`: a DELETE endpoint. -/
def endpoint.delete {ρ : Type} (path_template : String)
    (map_args : List (PyVal → String))
    (map_kwargs : List (String × (PyVal → String))) : endpoint ρ :=
  endpoint.init "DELETE" path_template map_args map_kwargs

/-- Embeds `endpoint.update`: an UPDATE endpoint. -/
def endpoint.update {ρ : Type} (path_template : String)
    (map_args : List (PyVal → String))
    (map_kwargs : List (String × (PyVal → String))) : endpoint ρ :=
  endpoint.init "UPDATE" path_template map_args map_kwargs

/-- Embeds `endpoint.__call__`: decoration stores the wrapped method on
the descriptor and returns the wrapper (here: the updated descriptor,
whose calls go through `endpoint.execute`). -/
def endpoint.callDecorate {ρ : Type} (e : endpoint ρ)
    (f : Client → Response → ρ) : endpoint ρ :=
  { e with func := some f }

/-- Embeds the body of the loop `for k, v in kwargs.items():` in
`endpoint._parse_args`: keys with a registered keyword converter are
converted into `params`, all others are kept as passthrough kwargs.
Note that `_parse_args` itself runs this loop over the freshly rebound
EMPTY dict, never over the caller's kwargs; the definition is applied to
the caller's kwargs only when stating what the docstring promises. -/
def endpoint.partitionKwargs {ρ : Type} (e : endpoint ρ)
    (kw : List (String × PyVal)) :
    List (String × String) × List (String × PyVal) :=
  kw.foldl
    (fun acc kv =>
      match dictGet e.map_kwargs kv.1 with
      | some f => (acc.1 ++ [(kv.1, f kv.2)], acc.2)
      | none => (acc.1, acc.2 ++ [kv]))
    ([], [])

/-- Embeds the line `args = (f(v) for f, v in zip(self.map_args, args))`
of `endpoint._parse_args`: each positional converter is applied, in
order, to the positional call argument at the same index; `zip` stops at
the shorter of the two lists. -/
def endpoint.convertArgs {ρ : Type} (e : endpoint ρ) (args : List PyVal) :
    List String :=
  (e.map_args.zip args).map (fun fv => fv.1 fv.2)

/-- Embeds `endpoint._parse_args`. The descriptor is threaded through as
state and returned alongside the result, mirroring that the method could
in principle assign to `self`; the source assigns only locals. Faithful
to the source, the incoming `kwargs` binding is shadowed by
`kwargs = dict()` before the partition loop, so the loop iterates over
the empty dict and both `params` and the returned passthrough kwargs are
always empty. -/
def endpoint.parseArgs {ρ : Type} (e : endpoint ρ) (args : List PyVal)
    (_kwargs0 : List (String × PyVal)) :
    endpoint ρ ×
      Except FormatError (String × List (String × String) × List (String × PyVal)) :=
  let argStrs := endpoint.convertArgs e args
  (e,
    (pyFormat e.path_template argStrs).map
      (fun path =>
        let pk := endpoint.partitionKwargs e []
        (path, pk.1, pk.2)))

/-- Errors surfacing from a decorated call: template substitution
failure, HTTP status failure, or calling an undecorated descriptor
(whose `func` is still `None`). -/
inductive ExecError : Type where
  | format : FormatError → ExecError
  | http : HTTPError → ExecError
  | notDecorated : ExecError
  deriving DecidableEq, Repr

/-- Embeds `endpoint.execute`: parse the call arguments, issue
`client.request(self.method, path, params=params, **kwargs)`, then call
the wrapped method with exactly the client and the response. The
descriptor is threaded through as state and returned unchanged. -/
def endpoint.execute {ρ : Type} (e : endpoint ρ) (client : Client)
    (send : String → String → List (String × PyVal) → Response)
    (args : List PyVal) (kwargs : List (String × PyVal)) :
    endpoint ρ × Except ExecError ρ :=
  match endpoint.parseArgs e args kwargs with
  | (e1, Except.error fe) => (e1, Except.error (ExecError.format fe))
  | (e1, Except.ok (path, params, rest)) =>
      match RequestClient.request client send e1.method path
          (("params", PyVal.vDict params) :: rest) with
      | Except.error he => (e1, Except.error (ExecError.http he))
      | Except.ok response =>
          match e1.func with
          | none => (e1, Except.error ExecError.notDecorated)
          | some f => (e1, Except.ok (f client response))

/-- C2 (counterexample): a response with status 304 — outside [200,299] —
is returned by `RequestClient.request` instead of raising, refuting the
claim that every status outside [200,299] fails the operation. -/
theorem c2_status_304_returned_not_raised :
    RequestClient.request ⟨"https://api.example/"⟩
      (fun _ _ _ => ⟨304, "not modified"⟩) "GET" "p" [] =
        Except.ok ⟨304, "not modified"⟩ ∧
    ¬ (200 ≤ 304 ∧ 304 ≤ 299) := by
  exact ⟨rfl, by decide⟩

/-- C2 (amended): `RequestClient.request` returns the received response
unchanged exactly when its status code is outside [400,599] (so all of
[200,299] is returned unchanged, but so are 1xx and 3xx statuses), and
for status codes in [400,599] it fails with an `HTTPError` carrying the
status code and the response body. -/
theorem c2_request_status_handling (c : Client)
    (send : String → String → List (String × PyVal) → Response)
    (method path : String) (kwargs : List (String × PyVal)) :
    RequestClient.request c send method path kwargs =
      (if 400 ≤ (send method (RequestClient.requestURL c path) (withDefaultTimeout kwargs)).status_code ∧
          (send method (RequestClient.requestURL c path) (withDefaultTimeout kwargs)).status_code < 600 then
        Except.error
          ⟨(send method (RequestClient.requestURL c path) (withDefaultTimeout kwargs)).status_code,
           (send method (RequestClient.requestURL c path) (withDefaultTimeout kwargs)).text⟩
      else
        Except.ok (send method (RequestClient.requestURL c path) (withDefaultTimeout kwargs))) := by
  unfold RequestClient.request raise_for_status
  split_ifs <;> rfl

/-- C3 (code bug): the source's `urljoin` is `os.path.join`, so for the
relative path `"echo"` against the base `"https://api.example/base"` the
URL actually requested is `"https://api.example/base/echo"`, whereas
standard URL-joining semantics (what the alias `urljoin` and the spec
intend) give `"https://api.example/echo"`. -/
theorem c3_join_diverges_from_url_semantics :
    RequestClient.requestURL ⟨"https://api.example/base"⟩ "echo" =
      "https://api.example/base/echo" ∧
    urljoinRelative "https://api.example/base" "echo" =
      "https://api.example/echo" ∧
    RequestClient.requestURL ⟨"https://api.example/base"⟩ "echo" ≠
      urljoinRelative "https://api.example/base" "echo" := by
  exact ⟨rfl, rfl, by decide⟩

/-- C5: if the caller supplies no `timeout` option, the kwargs passed to
the underlying session request carry the default timeout 30; if the
caller supplies one, that value is passed through unmodified; all other
options are unaffected. -/
theorem c5_timeout_default (kwargs : List (String × PyVal)) :
    (dictGet kwargs "timeout" = none →
      dictGet (withDefaultTimeout kwargs) "timeout" = some (PyVal.vInt 30)) ∧
    (∀ v : PyVal, dictGet kwargs "timeout" = some v →
      dictGet (withDefaultTimeout kwargs) "timeout" = some v) ∧
    (∀ k : String, k ≠ "timeout" →
      dictGet (withDefaultTimeout kwargs) k = dictGet kwargs k) := by
  refine ⟨?_, ?_, ?_⟩
  · intro h
    unfold withDefaultTimeout
    rw [h, dictGet_dictSet_self]
    rfl
  · intro v h
    unfold withDefaultTimeout
    rw [h, dictGet_dictSet_self]
    rfl
  · intro k hk
    unfold withDefaultTimeout
    exact dictGet_dictSet_ne _ _ _ _ hk

/-- C5 (witness): with no options supplied the effective timeout is 30;
with `timeout` set to 5 the value 5 is kept. -/
theorem c5_timeout_default_witness :
    dictGet (withDefaultTimeout []) "timeout" = some (PyVal.vInt 30) ∧
    dictGet (withDefaultTimeout [("timeout", PyVal.vInt 5)]) "timeout" =
      some (PyVal.vInt 5) ∧
    dictGet (withDefaultTimeout [("timeout", PyVal.vInt 5)]) "verify" =
      dictGet [("timeout", PyVal.vInt 5)] "verify" := by
  refine ⟨(c5_timeout_default []).1 rfl,
          (c5_timeout_default [("timeout", PyVal.vInt 5)]).2.1 (PyVal.vInt 5) rfl,
          (c5_timeout_default [("timeout", PyVal.vInt 5)]).2.2 "verify" (by decide)⟩

/-- C10: when the path starts with `'/'`, the URL handed to the
underlying session request is the path alone — the configured server
base URL is discarded entirely, because the join is `os.path.join` —
and the whole request goes to that bare path (shown with an echoing
network stub). -/
theorem c10_absolute_path_discards_base (c : Client) (path : String)
    (h : strStartsWith path "/" = true) :
    RequestClient.requestURL c path = path ∧
    ∀ (method : String) (kwargs : List (String × PyVal)),
      RequestClient.request c (fun _ u _ => ⟨200, u⟩) method path kwargs =
        Except.ok ⟨200, path⟩ := by
  have hurl : RequestClient.requestURL c path = path := by
    unfold RequestClient.requestURL posixJoin
    rw [if_pos h]
  refine ⟨hurl, ?_⟩
  intro method kwargs
  unfold RequestClient.request raise_for_status
  rw [hurl]
  split_ifs with hc
  · have h1 := hc.1
    simp at h1
  · rfl

/-- C10 (witness): with server `https://api.example/base/` and path
`/echo`, the requested URL is exactly `/echo`. -/
theorem c10_absolute_path_discards_base_witness :
    RequestClient.requestURL ⟨"https://api.example/base/"⟩ "/echo" = "/echo" ∧
    RequestClient.request ⟨"https://api.example/base/"⟩ (fun _ u _ => ⟨200, u⟩)
      "GET" "/echo" [] = Except.ok ⟨200, "/echo"⟩ := by
  refine ⟨(c10_absolute_path_discards_base ⟨"https://api.example/base/"⟩ "/echo" (by decide)).1,
          (c10_absolute_path_discards_base ⟨"https://api.example/base/"⟩ "/echo" (by decide)).2 "GET" []⟩

/-- C8: each convenience constructor equals the full constructor with
the corresponding verb fixed and the remaining construction arguments
forwarded. -/
theorem c8_convenience_constructors (ρ : Type) (t : String)
    (a : List (PyVal → String)) (k : List (String × (PyVal → String))) :
    (endpoint.get t a k : endpoint ρ) = endpoint.init "GET" t a k ∧
    (endpoint.post t a k : endpoint ρ) = endpoint.init "POST" t a k ∧
    (endpoint.delete t a k : endpoint ρ) = endpoint.init "DELETE" t a k ∧
    (endpoint.update t a k : endpoint ρ) = endpoint.init "UPDATE" t a k := by
  exact ⟨rfl, rfl, rfl, rfl⟩

/-- Returns `true` exactly on `Except.ok` results. -/
def exceptOk {ε α : Type} : Except ε α → Bool
  | Except.ok _ => true
  | Except.error _ => false

theorem renderT_ok_of_le (ps : List TPart) :
    ∀ as : List String, slotCount ps ≤ as.length →
      ∃ s : String, renderT ps as = Except.ok s := by
  induction ps with
  | nil => intro as _; exact ⟨"", rfl⟩
  | cons p ps ih =>
      intro as h
      cases p with
      | lit c =>
          obtain ⟨s, hs⟩ := ih as (by simpa [slotCount] using h)
          exact ⟨c.toString ++ s, by rw [renderT, hs]; rfl⟩
      | slot =>
          cases as with
          | nil => simp [slotCount] at h
          | cons a as =>
              obtain ⟨s, hs⟩ := ih as (by simp [slotCount, List.length_cons] at h; omega)
              exact ⟨a ++ s, by rw [renderT, hs]; rfl⟩

theorem renderT_err_of_lt (ps : List TPart) :
    ∀ as : List String, as.length < slotCount ps →
      renderT ps as = Except.error FormatError.indexError := by
  induction ps with
  | nil => intro as h; simp [slotCount] at h
  | cons p ps ih =>
      intro as h
      cases p with
      | lit c =>
          rw [renderT, ih as (by simpa [slotCount] using h)]
          rfl
      | slot =>
          cases as with
          | nil => rfl
          | cons a as =>
              rw [renderT, ih as (by simp [slotCount, List.length_cons] at h; omega)]
              rfl

theorem zipApply_getElem? (fs : List (PyVal → String)) :
    ∀ (vs : List PyVal) (i : Nat),
      ((fs.zip vs).map (fun fv => fv.1 fv.2))[i]? =
        (fs[i]?).bind (fun f => (vs[i]?).map f) := by
  induction fs with
  | nil => intro vs i; simp
  | cons f fs ih =>
      intro vs i
      cases vs with
      | nil => simp
      | cons v vs =>
          cases i with
          | zero => simp
          | succ n => simpa using ih vs n

theorem zip_append_right_of_le {α β : Type} (l : List α) :
    ∀ (l' extra : List β), l.length ≤ l'.length →
      l.zip (l' ++ extra) = l.zip l' := by
  induction l with
  | nil => intro l' extra _; simp
  | cons x xs ih =>
      intro l' extra h
      cases l' with
      | nil => simp [List.length_cons] at h
      | cons y ys =>
          simp only [List.cons_append, List.zip_cons_cons]
          rw [ih ys extra (by simpa [List.length_cons] using h)]

/-- A single empty replacement field, as a string. -/
def slotStr : String := String.mk [lbrace, rbrace]

/-- Example endpoint from the spec's slot/argument property: template
`items/` slot `?` slot with two positional converters. -/
def exItems : endpoint Response :=
  endpoint.init "GET" ("items/" ++ slotStr ++ "?" ++ slotStr) [pyStrConv, pyStrConv] []

/-- Parsed parts of `exItems`'s path template. -/
def exItemsParts : List TPart :=
  [TPart.lit 'i', TPart.lit 't', TPart.lit 'e', TPart.lit 'm', TPart.lit 's',
   TPart.lit '/', TPart.slot, TPart.lit '?', TPart.slot]

/-- Example endpoint with one registered keyword converter `q`. -/
def exQ : endpoint Response :=
  endpoint.init "GET" "items" [] [("q", pyStrConv)]

/-- Example client from the spec's end-to-end scenario. -/
def exClient : Client := ⟨"https://api.example/base/"⟩

/-- Network stub that echoes the requested URL in the response body. -/
def exSend : String → String → List (String × PyVal) → Response :=
  fun _ u _ => ⟨200, u⟩

/-- Example decorated endpoint from the spec's end-to-end scenario:
`get("search?limit={:}", str-converter)` wrapping a method that returns
the response it receives. -/
def exSearch : endpoint Response :=
  endpoint.callDecorate (endpoint.get ("search?limit=" ++ slotStr) [pyStrConv] [])
    (fun _ r => r)

/-- C1 (code bug): `_parse_args` rebinds `kwargs` to an empty dict
before its partition loop, so EVERY keyword call argument is silently
dropped — with named converter `q` registered and call kwargs
`q="x", headers={...}`, the code yields empty query parameters and empty
passthrough options; the loop body itself (`endpoint.partitionKwargs`),
run on the caller's kwargs as the docstring promises, would yield
`params = {"q": "x"}` and passthrough `{"headers": ...}`. -/
theorem c1_parse_args_drops_all_kwargs :
    (endpoint.parseArgs exQ []
        [("q", PyVal.vStr "x"), ("headers", PyVal.vDict [("accept", "json")])]).2 =
      Except.ok ("items", [], []) ∧
    endpoint.partitionKwargs exQ
        [("q", PyVal.vStr "x"), ("headers", PyVal.vDict [("accept", "json")])] =
      ([("q", "x")], [("headers", PyVal.vDict [("accept", "json")])]) := by
  exact ⟨rfl, rfl⟩

/-- C4: for a well-formed path template that parses into parts `ps`, a
decorated call substitutes all slots and succeeds whenever the number of
slots is at most the number of converted positional arguments (the
shorter of converters and arguments), and fails with
`FormatError.indexError` — immediately, no retry — whenever the slots
outnumber the converted arguments. -/
theorem c4_format_slots_vs_args (ρ : Type) (e : endpoint ρ) (ps : List TPart)
    (args : List PyVal) (kwargs : List (String × PyVal))
    (h : parseT e.path_template.data = Except.ok ps) :
    (slotCount ps ≤ min e.map_args.length args.length →
      exceptOk (endpoint.parseArgs e args kwargs).2 = true) ∧
    (min e.map_args.length args.length < slotCount ps →
      (endpoint.parseArgs e args kwargs).2 = Except.error FormatError.indexError) := by
  have hsnd : (endpoint.parseArgs e args kwargs).2 =
      (pyFormat e.path_template (endpoint.convertArgs e args)).map
        (fun path => (path, [], [])) := rfl
  have hpf : pyFormat e.path_template (endpoint.convertArgs e args) =
      renderT ps (endpoint.convertArgs e args) := by
    unfold pyFormat
    rw [h]
    rfl
  have hlen : (endpoint.convertArgs e args).length =
      min e.map_args.length args.length := by
    unfold endpoint.convertArgs
    simp [List.length_zip]
  constructor
  · intro hle
    obtain ⟨s, hs⟩ := renderT_ok_of_le ps (endpoint.convertArgs e args)
      (by rw [hlen]; exact hle)
    rw [hsnd, hpf, hs]
    rfl
  · intro hlt
    have hs := renderT_err_of_lt ps (endpoint.convertArgs e args)
      (by rw [hlen]; exact hlt)
    rw [hsnd, hpf, hs]
    rfl

/-- C4 (witness): with two converters and two arguments both slots of
`items/` slot `?` slot are substituted (`items/a?b`); with one argument
the call fails with `FormatError.indexError`. -/
theorem c4_format_slots_vs_args_witness :
    exceptOk (endpoint.parseArgs exItems [PyVal.vStr "a", PyVal.vStr "b"] []).2 = true ∧
    (endpoint.parseArgs exItems [PyVal.vStr "a", PyVal.vStr "b"] []).2 =
      Except.ok ("items/a?b", [], []) ∧
    (endpoint.parseArgs exItems [PyVal.vStr "a"] []).2 =
      Except.error FormatError.indexError := by
  refine ⟨(c4_format_slots_vs_args Response exItems exItemsParts
            [PyVal.vStr "a", PyVal.vStr "b"] [] rfl).1 (by decide),
          rfl,
          (c4_format_slots_vs_args Response exItems exItemsParts
            [PyVal.vStr "a"] [] rfl).2 (by decide)⟩

/-- C6: converted positional arguments are the converters applied, in
order, to the same-index call arguments, stopping at whichever of the
two lists is shorter; arguments beyond the converters are never
converted and never substituted — appending extra positional arguments
past the converter list leaves the whole parse result unchanged. -/
theorem c6_positional_conversion (ρ : Type) (e : endpoint ρ)
    (args extra : List PyVal) (kwargs : List (String × PyVal)) :
    (endpoint.convertArgs e args).length = min e.map_args.length args.length ∧
    (∀ (i : Nat) (h1 : i < e.map_args.length) (h2 : i < args.length),
      (endpoint.convertArgs e args)[i]? = some ((e.map_args[i]) (args[i]))) ∧
    (e.map_args.length ≤ args.length →
      endpoint.parseArgs e (args ++ extra) kwargs =
        endpoint.parseArgs e args kwargs) := by
  refine ⟨?_, ?_, ?_⟩
  · unfold endpoint.convertArgs
    simp [List.length_zip]
  · intro i h1 h2
    unfold endpoint.convertArgs
    rw [zipApply_getElem? e.map_args args i,
        List.getElem?_eq_getElem h1, List.getElem?_eq_getElem h2]
    rfl
  · intro hle
    have hconv : endpoint.convertArgs e (args ++ extra) =
        endpoint.convertArgs e args := by
      unfold endpoint.convertArgs
      rw [zip_append_right_of_le e.map_args args extra hle]
    simp only [endpoint.parseArgs, hconv]

/-- C6 (witness): with two converters, two arguments are converted at
their own indices (`a` at index 0) and a third argument is ignored by
the whole argument parse. -/
theorem c6_positional_conversion_witness :
    (endpoint.convertArgs exItems [PyVal.vStr "a", PyVal.vStr "b"]).length = min 2 2 ∧
    (endpoint.convertArgs exItems [PyVal.vStr "a", PyVal.vStr "b"])[0]? = some "a" ∧
    endpoint.parseArgs exItems ([PyVal.vStr "a", PyVal.vStr "b"] ++ [PyVal.vStr "c"]) [] =
      endpoint.parseArgs exItems [PyVal.vStr "a", PyVal.vStr "b"] [] := by
  refine ⟨(c6_positional_conversion Response exItems
            [PyVal.vStr "a", PyVal.vStr "b"] [] []).1,
          (c6_positional_conversion Response exItems
            [PyVal.vStr "a", PyVal.vStr "b"] [] []).2.1 0 (by decide) (by decide),
          (c6_positional_conversion Response exItems
            [PyVal.vStr "a", PyVal.vStr "b"] [PyVal.vStr "c"] []).2.2 (by decide)⟩

/-- C7: whenever argument parsing and the HTTP request succeed, the
wrapped method is invoked with exactly the client instance and the
response — never the raw call arguments — and its return value is
returned unchanged as the result of the decorated call. -/
theorem c7_wrapped_func_gets_response (ρ : Type) (e : endpoint ρ)
    (f : Client → Response → ρ) (client : Client)
    (send : String → String → List (String × PyVal) → Response)
    (args : List PyVal) (kwargs : List (String × PyVal))
    (path : String) (params : List (String × String))
    (rest : List (String × PyVal)) (resp : Response)
    (hf : e.func = some f)
    (hp : (endpoint.parseArgs e args kwargs).2 = Except.ok (path, params, rest))
    (hr : RequestClient.request client send e.method path
        (("params", PyVal.vDict params) :: rest) = Except.ok resp) :
    (endpoint.execute e client send args kwargs).2 = Except.ok (f client resp) := by
  have hpair : endpoint.parseArgs e args kwargs =
      (e, Except.ok (path, params, rest)) := Prod.ext rfl hp
  simp [endpoint.execute, hpair, hr, hf]

/-- C7 (witness): the spec's end-to-end scenario — server
`https://api.example/base/`, endpoint `GET search?limit=` slot with an
int-to-string converter, called with argument 5 — requests exactly
`https://api.example/base/search?limit=5` (the echoing stub returns the
URL as body) and the wrapped method's return value (the response) comes
back unchanged. -/
theorem c7_wrapped_func_gets_response_witness :
    (endpoint.execute exSearch exClient exSend [PyVal.vInt 5] []).2 =
      Except.ok (⟨200, "https://api.example/base/search?limit=5"⟩ : Response) :=
  c7_wrapped_func_gets_response Response exSearch (fun _ r => r) exClient exSend
    [PyVal.vInt 5] [] "search?limit=5" [] []
    ⟨200, "https://api.example/base/search?limit=5"⟩ rfl rfl rfl

/-- C9: the descriptor is immutable across calls of the decorated
method: threading it through `_parse_args` and `execute` as state
returns it unchanged (the source bodies assign only locals, never
`self`), so the same descriptor value is shared by all calls. -/
theorem c9_descriptor_immutable (ρ : Type) (e : endpoint ρ) (client : Client)
    (send : String → String → List (String × PyVal) → Response)
    (args : List PyVal) (kwargs : List (String × PyVal)) :
    (endpoint.parseArgs e args kwargs).1 = e ∧
    (endpoint.execute e client send args kwargs).1 = e := by
  refine ⟨rfl, ?_⟩
  cases hres : (endpoint.parseArgs e args kwargs).2 with
  | error fe =>
      have hpair : endpoint.parseArgs e args kwargs =
          (e, Except.error fe) := Prod.ext rfl hres
      simp [endpoint.execute, hpair]
  | ok triple =>
      obtain ⟨path, params, rest⟩ := triple
      have hpair : endpoint.parseArgs e args kwargs =
          (e, Except.ok (path, params, rest)) := Prod.ext rfl hres
      cases hr : RequestClient.request client send e.method path
          (("params", PyVal.vDict params) :: rest) with
      | error he => simp [endpoint.execute, hpair, hr]
      | ok resp =>
          cases hfu : e.func with
          | none => simp [endpoint.execute, hpair, hr, hfu]
          | some f => simp [endpoint.execute, hpair, hr, hfu]
